import Mathlib

/-!
Verification development for the video-bookmarks browser extension core:
the durable bookmark store (`src/storage`), the background session
registry and its message handlers (`src/background/manager.ts`), the
retry/backoff executor (`src/utils/retry.ts`), the storage repair pass
(`src/storage/recovery.ts`) and the popup's deletion countdown
(`src/popup/components/BookmarkList.tsx`), shallowly embedded as
executable Lean functions, together with theorems about the stated
properties of these components.
-/

set_option autoImplicit false

namespace VideoBookmarks

/-! ## Association-list maps

`chrome.storage.local` stores the bookmark collection as a JS object
keyed by video id, and the background manager keeps a `Map` from tab id
to active video.  Both preserve insertion order, overwrite in place on
re-assignment of an existing key, and hold at most one entry per key.
We model both as association lists with first-occurrence semantics. -/

section AssocListModel

variable {κ ν : Type} [DecidableEq κ]

/-- Look up the value stored under a key (first occurrence). -/
def alGet : List (κ × ν) → κ → Option ν
  | [], _ => none
  | (k, v) :: rest, key => if k = key then some v else alGet rest key

/-- JS-object/Map assignment: overwrite the first occurrence of the key in
place, or append a new entry at the end. -/
def alSet : List (κ × ν) → κ → ν → List (κ × ν)
  | [], key, v => [(key, v)]
  | (k, w) :: rest, key, v =>
    if k = key then (key, v) :: rest else (k, w) :: alSet rest key v

/-- JS `delete obj[key]` / `Map.delete`: remove the entries with the key. -/
def alErase : List (κ × ν) → κ → List (κ × ν)
  | [], _ => []
  | (k, w) :: rest, key =>
    if k = key then alErase rest key else (k, w) :: alErase rest key

/-- Number of entries stored under a key (1 for a well-formed JS object
that has the key, 0 if absent). -/
def alCountKey (l : List (κ × ν)) (key : κ) : Nat :=
  (l.filter (fun p => p.1 = key)).length

end AssocListModel

/-! ## Data model (src/storage/types.ts, src/background/types.ts) -/

/-- Durable bookmark record (`VideoBookmark` in src/storage/types.ts).
Timestamps are JS numbers; integer-valued here. -/
structure VideoBookmark where
  id : String
  url : String
  title : String
  author : String
  lastTimestamp : Int
  maxTimestamp : Int
  createdAt : Int
  updatedAt : Int
deriving DecidableEq, Repr

/-- In-memory per-tab session (`ActiveVideo` in src/background/types.ts).
The optional `pendingDeletion` property is absent (`undefined`, falsy)
until `handleInitiateDelete` sets it; we model absent as `false`, which
is sound because the source only ever tests it for truthiness. -/
structure ActiveVideo where
  id : String
  tabId : Nat
  url : String
  title : String
  author : String
  lastTimestamp : Int
  maxTimestamp : Int
  lastUpdate : Int
  autoTracked : Bool
  pendingDeletion : Bool
deriving DecidableEq, Repr

/-- The bookmark collection under the `bookmarks` storage key. -/
abbrev Store := List (String × VideoBookmark)

/-- The background manager's `activeVideos` map (tabId -> ActiveVideo). -/
abbrev Sessions := List (Nat × ActiveVideo)

/-- Error taxonomy of storage operations (`StorageErrorType`). -/
inductive StorageErrorType where
  | NOT_FOUND
  | QUOTA_EXCEEDED
  | INVALID_DATA
  | OPERATION_FAILED
deriving DecidableEq, Repr

/-! ## StorageManager (src/storage/index.ts) -/

/-- `StorageManager.saveBookmark`: upsert by `id`, always stamping
`updatedAt = Date.now()` on the stored copy. -/
def saveBookmark (s : Store) (b : VideoBookmark) (now : Int) : Store :=
  alSet s b.id { b with updatedAt := now }

/-- `StorageManager.getBookmark`: the stored record, if any (the source
throws `NOT_FOUND` when absent; callers treat that as `none`). -/
def getBookmark (s : Store) (videoId : String) : Option VideoBookmark :=
  alGet s videoId

/-- `StorageManager.deleteBookmark`: throws `NOT_FOUND` without writing
when the record is absent, otherwise removes it and writes the
collection back. -/
def deleteBookmark (s : Store) (videoId : String) : Except StorageErrorType Store :=
  match alGet s videoId with
  | none => .error .NOT_FOUND
  | some _ => .ok (alErase s videoId)

/-! ## BackgroundManager state and helpers (src/background/manager.ts) -/

/-- The coordinator's in-memory registry together with the durable store
it writes through `storageManager`. -/
structure BgState where
  activeVideos : Sessions
  store : Store
deriving DecidableEq, Repr

/-- The `VideoBookmark` literal built by `BackgroundManager.saveVideoState`:
both `createdAt` and `updatedAt` are set to `Date.now()` at flush time. -/
def mkBookmarkOfSession (v : ActiveVideo) (now : Int) : VideoBookmark :=
  { id := v.id, url := v.url, title := v.title, author := v.author
    lastTimestamp := v.lastTimestamp, maxTimestamp := v.maxTimestamp
    createdAt := now, updatedAt := now }

/-- `BackgroundManager.saveVideoState`: build the bookmark literal at time
`tMk` and pass it to `saveBookmark`, whose own `Date.now()` call is
`tSave` (in the source the two reads of the clock happen moments apart). -/
def saveVideoState (s : Store) (v : ActiveVideo) (tMk tSave : Int) : Store :=
  saveBookmark s (mkBookmarkOfSession v tMk) tSave

/-! ## Message handlers of BackgroundManager -/

/-- Fire-and-forget messages broadcast between the coordinator and the
observers (popup, content scripts) for the deletion protocol. -/
inductive BroadcastMsg where
  | initiateDelete (videoId : String)
  | undoDelete (videoId : String)
  | confirmDelete (videoId : String)
deriving DecidableEq, Repr

/-- Observable side effects of a handler besides its state update:
messages sent, and timers started or cleared (`setTimeout` /
`setInterval` / the paired clears). A `setTimeoutMs` carries the message
its callback will send when it fires. -/
inductive Effect where
  | sendTab (tabId : Nat) (msg : BroadcastMsg)
  | sendRuntime (msg : BroadcastMsg)
  | clearTimersFor (videoId : String)
  | setIntervalMs (ms : Nat)
  | setTimeoutMs (ms : Nat) (onFire : BroadcastMsg)
deriving DecidableEq, Repr

/-- Whether an effect starts a deletion countdown (`setTimeout`). -/
def Effect.isCountdownTimer : Effect → Bool
  | .setTimeoutMs _ _ => true
  | _ => false

/-- `BackgroundManager.handleUpdateTimestamp` (manager.ts): ignore stale
messages (no session for the tab, or a different video id); otherwise set
`lastTimestamp = timestamp`, set `maxTimestamp = timestamp` when
`isMaxTimestamp` is set or the position moved past the old maximum, stamp
`lastUpdate`, and flush through `saveVideoState`. -/
def bgHandleUpdateTimestamp (st : BgState) (tabId : Nat) (videoId : String)
    (timestamp : Int) (isMaxTimestamp : Bool) (now : Int) : BgState :=
  match alGet st.activeVideos tabId with
  | none => st
  | some v =>
    if v.id ≠ videoId then st
    else
      let v1 : ActiveVideo :=
        { v with
          lastTimestamp := timestamp
          maxTimestamp :=
            if isMaxTimestamp || decide (v.maxTimestamp < timestamp) then timestamp
            else v.maxTimestamp
          lastUpdate := now }
      { activeVideos := alSet st.activeVideos tabId v1
        store := saveVideoState st.store v1 now now }

/-- An `UPDATE_TIMESTAMP` message as delivered to the handler. -/
structure UpdateMsg where
  tabId : Nat
  videoId : String
  timestamp : Int
  isMaxTimestamp : Bool
  now : Int
deriving DecidableEq, Repr

/-- Fold a sequence of `UPDATE_TIMESTAMP` messages through the handler. -/
def applyUpdates (st : BgState) (msgs : List UpdateMsg) : BgState :=
  msgs.foldl
    (fun s m => bgHandleUpdateTimestamp s m.tabId m.videoId m.timestamp m.isMaxTimestamp m.now)
    st

/-! ## extractVideoId (src/contentScript/utils.ts)

The source matches the URL against
the regex pattern of a watch URL, namely
alternation of the two literal heads `youtube.com/watch?v=` and
`youtu.be/`, each followed by one or more characters other than
ampersand, question mark and hash, returning the first capture. -/

/-- Characters that end a video id in the URL (the negated class). -/
def idStopChar (c : Char) : Bool := c = '&' || c = '?' || c = '#'

/-- Literal pattern match at the head of a character list. -/
def matchesAt : List Char → List Char → Bool
  | [], _ => true
  | _ :: _, [] => false
  | p :: ps, c :: cs => p = c && matchesAt ps cs

/-- First alternative head of the regex. -/
def watchHead : List Char := "youtube.com/watch?v=".toList

/-- Second alternative head of the regex. -/
def shortHead : List Char := "youtu.be/".toList

/-- Attempt both regex alternatives at one position: the head literal
must match and the following id group must be non-empty. -/
def ytTryAt (s : List Char) : Option (List Char) :=
  if matchesAt watchHead s then
    let g := (s.drop watchHead.length).takeWhile (fun c => !idStopChar c)
    if g.isEmpty then
      if matchesAt shortHead s then
        let g2 := (s.drop shortHead.length).takeWhile (fun c => !idStopChar c)
        if g2.isEmpty then none else some g2
      else none
    else some g
  else if matchesAt shortHead s then
    let g2 := (s.drop shortHead.length).takeWhile (fun c => !idStopChar c)
    if g2.isEmpty then none else some g2
  else none

/-- Scan the URL left to right for the first position where the regex
matches, as the regex engine does. -/
def ytScan : List Char → Option (List Char)
  | [] => none
  | c :: rest =>
    match ytTryAt (c :: rest) with
    | some g => some g
    | none => ytScan rest

/-- `extractVideoId(url)`: the captured id, or `null` when the URL does
not match. -/
def extractVideoId (url : String) : Option String :=
  (ytScan url.toList).map (fun g => String.mk g)

/-- JS string-or: `a || b` on strings, where the empty string is falsy. -/
def jsOrStr (a b : String) : String := if a = "" then b else a

/-- A `VIDEO_DETECTED` message. The content script sends id, url, title
and author; `lastTimestamp`/`maxTimestamp` are absent (`undefined`) in
every sender, which the handler's `??` operators tolerate. -/
structure VideoDetectedMsg where
  tabId : Nat
  videoId : String
  url : String
  title : String
  author : String
  lastTimestamp : Option Int
  maxTimestamp : Option Int
deriving DecidableEq, Repr

/-- `BackgroundManager.handleVideoDetected` (manager.ts): reject the
message when `extractVideoId(url)` does not equal the claimed id; flush
and evict an existing session of the tab that tracks a different video;
build the new session, falling back to the surviving session's metadata
and timestamps where the message's are empty or absent; reject (keeping
the flush/evict already performed) when title or author end up empty;
otherwise install the new session. -/
def bgHandleVideoDetected (st : BgState) (m : VideoDetectedMsg) (now : Int)
    (autoTrackEnabled : Bool) : BgState :=
  if extractVideoId m.url ≠ some m.videoId then st
  else
    let ex0 := alGet st.activeVideos m.tabId
    let st1 : BgState :=
      match ex0 with
      | some ev =>
        if ev.id ≠ m.videoId then
          { activeVideos := alErase st.activeVideos m.tabId
            store := saveVideoState st.store { ev with lastUpdate := now } now now }
        else st
      | none => st
    let ex : Option ActiveVideo :=
      match ex0 with
      | some ev => if ev.id ≠ m.videoId then none else some ev
      | none => none
    let av : ActiveVideo :=
      { id := m.videoId
        tabId := m.tabId
        url := m.url
        title := jsOrStr m.title ((ex.map (fun e => e.title)).getD "")
        author := jsOrStr m.author ((ex.map (fun e => e.author)).getD "")
        lastTimestamp := m.lastTimestamp.getD ((ex.map (fun e => e.lastTimestamp)).getD 0)
        maxTimestamp := max (m.maxTimestamp.getD 0) ((ex.map (fun e => e.maxTimestamp)).getD 0)
        lastUpdate := now
        autoTracked := autoTrackEnabled
        pendingDeletion := false }
    if av.title = "" ∨ av.author = "" then st1
    else { st1 with activeVideos := alSet st1.activeVideos m.tabId av }

/-- `BackgroundManager.handleInitiateDelete`: mark every session tracking
the video as `pendingDeletion` and broadcast `INITIATE_DELETE` to the
YouTube tabs. No timer is set here; the store is not touched. -/
def bgHandleInitiateDelete (st : BgState) (videoId : String) (ytTabs : List Nat) :
    BgState × List Effect :=
  ({ st with
      activeVideos := st.activeVideos.map
        (fun p => if p.2.id = videoId then (p.1, { p.2 with pendingDeletion := true }) else p) },
   ytTabs.map (fun t => Effect.sendTab t (.initiateDelete videoId)))

/-- `BackgroundManager.handleUndoDelete`: clear the `pendingDeletion`
flag (the source deletes the property) on every session tracking the
video and broadcast `UNDO_DELETE` to the YouTube tabs. -/
def bgHandleUndoDelete (st : BgState) (videoId : String) (ytTabs : List Nat) :
    BgState × List Effect :=
  ({ st with
      activeVideos := st.activeVideos.map
        (fun p => if p.2.id = videoId then (p.1, { p.2 with pendingDeletion := false }) else p) },
   ytTabs.map (fun t => Effect.sendTab t (.undoDelete videoId)))

/-- `BackgroundManager.handleConfirmDelete`: flush and remove every
session tracking the video, then `deleteBookmark`; when that throws
`NOT_FOUND` the catch swallows the error and the broadcasts are skipped,
otherwise `CONFIRM_DELETE` is broadcast to the tabs and the popup. -/
def bgHandleConfirmDelete (st : BgState) (videoId : String) (now : Int)
    (ytTabs : List Nat) : BgState × List Effect :=
  let store1 := st.activeVideos.foldl
    (fun s p => if p.2.id = videoId then saveVideoState s p.2 now now else s) st.store
  let vids1 := st.activeVideos.filter (fun p => p.2.id ≠ videoId)
  match deleteBookmark store1 videoId with
  | .error _ => ({ activeVideos := vids1, store := store1 }, [])
  | .ok store2 =>
    ({ activeVideos := vids1, store := store2 },
     ytTabs.map (fun t => Effect.sendTab t (.confirmDelete videoId))
       ++ [Effect.sendRuntime (.confirmDelete videoId)])

/-- One iteration of the periodic save loop: skip a session flagged
`pendingDeletion`, persist any other. -/
def sweepStep (now : Int) (s : Store) (p : Nat × ActiveVideo) : Store :=
  if !p.2.pendingDeletion then saveVideoState s p.2 now now else s

/-- The periodic save sweep registered by
`BackgroundManager.startPeriodicSaves`: every 30 s, persist every active
video except those flagged `pendingDeletion`. -/
def periodicSave (st : BgState) (now : Int) : BgState :=
  { st with store := st.activeVideos.foldl (sweepStep now) st.store }

/-! ## Popup deletion countdown (src/popup/components/BookmarkList.tsx)

The popup's `handleInitiateDelete` owns a 5-second countdown: it clears
any previous timers for the id, marks the bookmark as deleting, sends
`INITIATE_DELETE` to the background, starts a 1 s display interval and a
5000 ms `setTimeout` whose callback sends `CONFIRM_DELETE` to the
background. `handleUndo` clears the timers and sends `UNDO_DELETE`. -/

/-- Popup component state relevant to deletion: the
`deletingBookmarks` record (id to seconds left) and the set of ids with
stored timer references (`timerRefs`). -/
structure PopupState where
  deleting : List (String × Nat)
  timerRefs : List String
deriving DecidableEq, Repr

/-- `handleInitiateDelete` in BookmarkList.tsx. -/
def popupHandleInitiateDelete (ps : PopupState) (id : String) :
    PopupState × List Effect :=
  ({ deleting := alSet ps.deleting id 5
     timerRefs := if ps.timerRefs.contains id then ps.timerRefs else ps.timerRefs ++ [id] },
   (if ps.timerRefs.contains id then [Effect.clearTimersFor id] else [])
     ++ [Effect.sendRuntime (.initiateDelete id),
         Effect.setIntervalMs 1000,
         Effect.setTimeoutMs 5000 (.confirmDelete id)])

/-- `handleUndo` in BookmarkList.tsx. -/
def popupHandleUndo (ps : PopupState) (id : String) : PopupState × List Effect :=
  ({ deleting := alErase ps.deleting id
     timerRefs := ps.timerRefs.filter (fun x => x ≠ id) },
   (if ps.timerRefs.contains id then [Effect.clearTimersFor id] else [])
     ++ [Effect.sendRuntime (.undoDelete id)])

/-! ## Retry executor (src/utils/retry.ts)

`withRetry` is modelled as a deterministic simulation of the JS event
loop: the wrapped function's behaviour on its i-th invocation is given by
a map from the (1-based) invocation index to an outcome (resolve after
`dur` ms, reject after `dur` ms, or never settle), time is an absolute
millisecond counter starting when `withRetry` is entered, and the single
timeout timer created before the loop fires at the absolute time
`timeout`. -/

/-- Retry configuration (`RetryConfig`), with the merge of the caller's
partial config over `DEFAULT_RETRY_CONFIG` already performed. -/
structure RetryConfig where
  maxAttempts : Nat
  initialDelay : Nat
  maxDelay : Nat
  backoffFactor : Nat
  timeout : Option Nat
deriving DecidableEq, Repr

/-- `DEFAULT_RETRY_CONFIG` (no timeout configured). -/
def DEFAULT_RETRY_CONFIG : RetryConfig :=
  { maxAttempts := 3, initialDelay := 1000, maxDelay := 10000, backoffFactor := 2, timeout := none }

/-- `calculateDelay(attempt, config)`: exponential backoff capped at
`maxDelay`. -/
def calculateDelay (attempt : Nat) (config : RetryConfig) : Nat :=
  min (config.initialDelay * config.backoffFactor ^ attempt) config.maxDelay

/-- Behaviour of one invocation of the wrapped function: resolve with a
value after `dur` ms, reject with an error after `dur` ms, or never
settle. -/
inductive FnBehavior (α ε : Type) where
  | ok (v : α) (dur : Nat)
  | err (e : ε) (dur : Nat)
  | hang
deriving DecidableEq, Repr

/-- An error observed by the retry loop's catch: the wrapped function's
own rejection, the timeout timer's rejection, or the
`new Error('Unknown error')` placeholder used when no attempt ran. -/
inductive RaceErr (ε : Type) where
  | underlying (e : ε)
  | timedOut (operation : String) (ms : Nat)
  | unknownErr
deriving DecidableEq, Repr

/-- The `RetryError` thrown after exhausting attempts, carrying the
operation name, the attempt counter and the last caught error. -/
structure RetryError (ε : Type) where
  operation : String
  attempts : Nat
  lastError : RaceErr ε
deriving DecidableEq, Repr

/-- Final outcome of a `withRetry` call, with the absolute time at which
it settles (a call whose last pending promise never settles hangs). -/
inductive RetryResult (α ε : Type) where
  | success (v : α) (time : Nat)
  | failure (e : RetryError ε) (time : Nat)
  | hangs
deriving DecidableEq, Repr

/-- Outcome of racing one invocation against the (already scheduled)
timeout timer. -/
inductive RaceOutcome (α ε : Type) where
  | ok (v : α) (time : Nat)
  | err (e : RaceErr ε) (time : Nat)
  | never
deriving DecidableEq, Repr

/-- The timeout actually raced against: `fullConfig.timeout` when it is
truthy (present and non-zero), else none — `timeout: 0` is falsy in the
source's `fullConfig.timeout ? ... : null`. -/
def effectiveTimeout (cfg : RetryConfig) : Option Nat :=
  match cfg.timeout with
  | some t => if t = 0 then none else some t
  | none => none

/-- One `Promise.race([fn(), timeoutPromise])` (or bare `fn()` when no
timeout is configured), starting at absolute time `t`. Once the single
timer has fired (`T ≤ t`), the race rejects immediately with the timeout
error no matter what the invocation would have done. -/
def racedAttempt {α ε : Type} (op : String) (cfg : RetryConfig)
    (b : FnBehavior α ε) (t : Nat) : RaceOutcome α ε :=
  match effectiveTimeout cfg with
  | none =>
    match b with
    | .ok v d => .ok v (t + d)
    | .err e d => .err (.underlying e) (t + d)
    | .hang => .never
  | some T =>
    if T ≤ t then .err (.timedOut op T) t
    else
      match b with
      | .ok v d => if t + d < T then .ok v (t + d) else .err (.timedOut op T) T
      | .err e d => if t + d < T then .err (.underlying e) (t + d) else .err (.timedOut op T) T
      | .hang => .err (.timedOut op T) T

/-- Trace of a `withRetry` call: its result, how many times the wrapped
function was invoked, the backoff sleeps performed between attempts (in
order), and the errors caught (in order). -/
structure RetryTrace (α ε : Type) where
  result : RetryResult α ε
  invocations : Nat
  delays : List Nat
  errors : List (RaceErr ε)
deriving DecidableEq, Repr

/-- One iteration of the `while (attempt < maxAttempts)` loop of
`withRetry`, at `attempt` prior failures and absolute time `t`: race the
next invocation; on success return; on a caught error increment the
counter and, when `fuel` further iterations remain, sleep
`calculateDelay(attempt - 1)` (with the incremented counter, i.e.
`calculateDelay attempt` here) and continue via `recur`, otherwise break
and throw the `RetryError`. -/
def retryStep {α ε : Type} (op : String) (cfg : RetryConfig)
    (fn : Nat → FnBehavior α ε) (attempt t fuel : Nat)
    (recur : Nat → Nat → RetryTrace α ε) : RetryTrace α ε :=
  match racedAttempt op cfg (fn (attempt + 1)) t with
  | .ok v t1 =>
    { result := .success v t1, invocations := 1, delays := [], errors := [] }
  | .never =>
    { result := .hangs, invocations := 1, delays := [], errors := [] }
  | .err e t1 =>
    match fuel with
    | 0 =>
      { result := .failure { operation := op, attempts := attempt + 1, lastError := e } t1
        invocations := 1, delays := [], errors := [e] }
    | _ + 1 =>
      let d := calculateDelay attempt cfg
      let tr := recur (attempt + 1) (t1 + d)
      { result := tr.result, invocations := tr.invocations + 1
        delays := d :: tr.delays, errors := e :: tr.errors }

/-- The retry loop with `fuel` iterations left (`maxAttempts - attempt`);
with no iterations left (only possible when `maxAttempts = 0`) the
`RetryError` wraps the `Error('Unknown error')` placeholder. -/
def retryGo {α ε : Type} (op : String) (cfg : RetryConfig)
    (fnSpec : Nat → FnBehavior α ε) :
    Nat → Nat → Nat → RetryTrace α ε
  | 0, attempt, t =>
    { result := .failure { operation := op, attempts := attempt, lastError := .unknownErr } t
      invocations := 0, delays := [], errors := [] }
  | fuel + 1, attempt, t =>
    retryStep op cfg fnSpec attempt t fuel (retryGo op cfg fnSpec fuel)

/-- `withRetry(operation, fn, config)` as a whole, entered at time 0. -/
def withRetry {α ε : Type} (op : String) (cfg : RetryConfig)
    (fnSpec : Nat → FnBehavior α ε) : RetryTrace α ε :=
  retryGo op cfg fnSpec cfg.maxAttempts 0 0

/-! ## JS runtime values and the repair pass (src/storage/recovery.ts)

`repairBookmark` and `isValidBookmark` operate on arbitrary stored JSON
values, so their embedding works over a type of JS runtime values. The
numeric coercions (`Math.max`, `Math.min`, comparison operators) are
modelled through `ToNumber` with `none` standing for `NaN`; string
parsing covers the integer-literal strings that can arise here (any
other string coerces to `NaN`). All comparisons below are only reached
with at most one string operand, so numeric comparison is faithful. -/

/-- A JS runtime value as far as the recovery code can observe it. -/
inductive JSVal where
  | num (x : Int)
  | nan
  | str (s : String)
  | bool (b : Bool)
  | null
  | undef
deriving DecidableEq, Repr

/-- JS `typeof v === 'number'` (true for `NaN` as well). -/
def JSVal.typeofNumber : JSVal → Bool
  | .num _ => true
  | .nan => true
  | _ => false

/-- JS `typeof v === 'string'`. -/
def JSVal.typeofString : JSVal → Bool
  | .str _ => true
  | _ => false

/-- JS truthiness. -/
def JSVal.truthy : JSVal → Bool
  | .num x => x ≠ 0
  | .nan => false
  | .str s => s ≠ ""
  | .bool b => b
  | .null => false
  | .undef => false

/-- Digit run to a natural number; `none` on a non-digit. -/
def digitsToNatAux : List Char → Nat → Option Nat
  | [], acc => some acc
  | c :: cs, acc =>
    if '0' ≤ c ∧ c ≤ '9' then digitsToNatAux cs (acc * 10 + (c.toNat - 48)) else none

/-- A non-empty digit run to a natural number. -/
def digitsToNat : List Char → Option Nat
  | [] => none
  | c :: cs => digitsToNatAux (c :: cs) 0

/-- JS `ToNumber` on a string: trim whitespace, the empty string is 0, an
optionally signed integer literal is its value, anything else is `NaN`
(fractional, hex and exponent literals do not arise in this code). -/
def jsStrToNumber (s : String) : Option Int :=
  let cs := ((s.toList.dropWhile (fun c => c = ' ')).reverse.dropWhile
    (fun c => c = ' ')).reverse
  match cs with
  | [] => some 0
  | '-' :: rest => (digitsToNat rest).map (fun n => -(n : Int))
  | '+' :: rest => (digitsToNat rest).map (fun n => (n : Int))
  | rest => (digitsToNat rest).map (fun n => (n : Int))

/-- JS `ToNumber`, with `none` for `NaN`. -/
def JSVal.toNumber : JSVal → Option Int
  | .num x => some x
  | .nan => none
  | .str s => jsStrToNumber s
  | .bool b => some (if b then 1 else 0)
  | .null => some 0
  | .undef => none

/-- JS `a || b`. -/
def jsOr (a b : JSVal) : JSVal := if a.truthy then a else b

/-- JS `a < b` via numeric coercion (false when either side is `NaN`). -/
def jsLt (a b : JSVal) : Bool :=
  match a.toNumber, b.toNumber with
  | some x, some y => decide (x < y)
  | _, _ => false

/-- JS `a <= b` via numeric coercion (false when either side is `NaN`). -/
def jsLe (a b : JSVal) : Bool :=
  match a.toNumber, b.toNumber with
  | some x, some y => decide (x ≤ y)
  | _, _ => false

/-- JS `a > b` via numeric coercion. -/
def jsGt (a b : JSVal) : Bool := jsLt b a

/-- JS `a >= b` via numeric coercion. -/
def jsGe (a b : JSVal) : Bool := jsLe b a

/-- JS `Math.max(a, b)` (`NaN` when either argument coerces to `NaN`). -/
def mathMax (a b : JSVal) : JSVal :=
  match a.toNumber, b.toNumber with
  | some x, some y => .num (max x y)
  | _, _ => .nan

/-- JS `Math.min(a, b)` (`NaN` when either argument coerces to `NaN`). -/
def mathMin (a b : JSVal) : JSVal :=
  match a.toNumber, b.toNumber with
  | some x, some y => .num (min x y)
  | _, _ => .nan

/-- The fields of a stored bookmark object as raw JS values (a missing
property reads as `undefined`). -/
structure RawBookmark where
  id : JSVal
  url : JSVal
  title : JSVal
  author : JSVal
  lastTimestamp : JSVal
  maxTimestamp : JSVal
  createdAt : JSVal
  updatedAt : JSVal
deriving DecidableEq, Repr

/-- A stored value as `repairBookmark`/`isValidBookmark` receive it:
either a primitive (including `null`) or an object with the above
properties. -/
inductive JSStored where
  | prim (p : JSVal)
  | obj (b : RawBookmark)
deriving DecidableEq, Repr

/-- `isValidBookmark(bookmark)` (recovery.ts): the structural and range
invariants of a durable record, checked at time `now` (`Date.now()`). -/
def isValidBookmark (v : JSStored) (now : Int) : Bool :=
  match v with
  | .prim _ => false
  | .obj b =>
    b.id.typeofString && b.url.typeofString && b.title.typeofString &&
    b.author.typeofString && b.lastTimestamp.typeofNumber &&
    b.maxTimestamp.typeofNumber && b.createdAt.typeofNumber &&
    b.updatedAt.typeofNumber &&
    jsGe b.lastTimestamp (.num 0) &&
    jsGe b.maxTimestamp b.lastTimestamp &&
    jsLe b.createdAt b.updatedAt &&
    jsLe b.updatedAt (.num now)

/-- `StorageRecovery.repairBookmark(id, bookmark)` (recovery.ts): `null`
for a non-object; otherwise substitute defaults field by field —
`lastTimestamp` defaults to 0 unless a non-negative number;
`maxTimestamp` is `Math.max(maxTimestamp, lastTimestamp || 0)` when
`maxTimestamp` is a non-negative number and the raw `lastTimestamp || 0`
otherwise; `createdAt`/`updatedAt` are clamped below `now` when positive
numbers and replaced by `now` otherwise — then apply the two final
fix-ups (`maxTimestamp < lastTimestamp` and `createdAt > updatedAt`). -/
def repairBookmark (id : String) (v : JSStored) (now : Int) : Option RawBookmark :=
  match v with
  | .prim _ => none
  | .obj b =>
    let lastTs : JSVal :=
      if b.lastTimestamp.typeofNumber && jsGe b.lastTimestamp (.num 0)
      then b.lastTimestamp else .num 0
    let maxTs : JSVal :=
      if b.maxTimestamp.typeofNumber && jsGe b.maxTimestamp (.num 0)
      then mathMax b.maxTimestamp (jsOr b.lastTimestamp (.num 0))
      else jsOr b.lastTimestamp (.num 0)
    let created : JSVal :=
      if b.createdAt.typeofNumber && jsGt b.createdAt (.num 0)
      then mathMin b.createdAt (.num now) else .num now
    let updated : JSVal :=
      if b.updatedAt.typeofNumber && jsGt b.updatedAt (.num 0)
      then mathMin b.updatedAt (.num now) else .num now
    let maxTs1 : JSVal := if jsLt maxTs lastTs then lastTs else maxTs
    let created1 : JSVal := if jsGt created updated then updated else created
    some
      { id := if b.id.typeofString then b.id else .str id
        url := if b.url.typeofString then b.url
               else .str ("https://youtube.com/watch?v=" ++ id)
        title := if b.title.typeofString then b.title else .str "Unknown Title"
        author := if b.author.typeofString then b.author else .str "Unknown Author"
        lastTimestamp := lastTs
        maxTimestamp := maxTs1
        createdAt := created1
        updatedAt := updated }

/-- Concrete retry configuration used by witnesses below. -/
def exRetryCfg : RetryConfig :=
  { maxAttempts := 2, initialDelay := 500, maxDelay := 5000, backoffFactor := 2, timeout := none }

/-- Concrete always-failing operation used by witnesses below. -/
def exRetryFn : Nat → FnBehavior Nat Nat := fun _ => .err 0 1

/-! ## Association-list lemmas -/

section AssocListLemmas

variable {κ ν : Type} [DecidableEq κ]

theorem alGet_alSet_self (l : List (κ × ν)) (k : κ) (v : ν) :
    alGet (alSet l k v) k = some v := by
  induction l with
  | nil => simp [alGet, alSet]
  | cons p rest ih =>
    obtain ⟨k0, w⟩ := p
    by_cases h : k0 = k <;> simp [alGet, alSet, h, ih]

theorem alGet_alSet_ne (l : List (κ × ν)) (k k1 : κ) (v : ν) (h : k1 ≠ k) :
    alGet (alSet l k v) k1 = alGet l k1 := by
  induction l with
  | nil =>
    simp only [alSet, alGet]
    rw [if_neg (Ne.symm h)]
  | cons p rest ih =>
    obtain ⟨k0, w⟩ := p
    by_cases h0 : k0 = k
    · subst h0
      simp only [alSet, if_pos rfl, alGet]
      rw [if_neg (Ne.symm h), if_neg (Ne.symm h)]
    · simp only [alSet, alGet]
      rw [if_neg h0]
      by_cases h1 : k0 = k1 <;> simp [alGet, h1, ih]

theorem alGet_alErase_self (l : List (κ × ν)) (k : κ) :
    alGet (alErase l k) k = none := by
  induction l with
  | nil => simp [alGet, alErase]
  | cons p rest ih =>
    obtain ⟨k0, w⟩ := p
    by_cases h : k0 = k <;> simp [alGet, alErase, h, ih]

theorem alSet_length (l : List (κ × ν)) (k : κ) (v : ν) :
    (alSet l k v).length = if (alGet l k).isSome then l.length else l.length + 1 := by
  induction l with
  | nil => simp [alGet, alSet]
  | cons p rest ih =>
    obtain ⟨k0, w⟩ := p
    by_cases h : k0 = k
    · simp [alGet, alSet, h]
    · simp only [alSet, alGet, if_neg h, List.length_cons, ih]
      split_ifs <;> simp

theorem alCountKey_cons (k0 : κ) (w : ν) (rest : List (κ × ν)) (k : κ) :
    alCountKey ((k0, w) :: rest) k = (if k0 = k then 1 else 0) + alCountKey rest k := by
  by_cases h : k0 = k <;> simp [alCountKey, List.filter_cons, h] <;> omega

theorem alCountKey_alSet_self (l : List (κ × ν)) (k : κ) (v : ν) :
    alCountKey (alSet l k v) k = max (alCountKey l k) 1 := by
  induction l with
  | nil => simp [alCountKey, alSet]
  | cons p rest ih =>
    obtain ⟨k0, w⟩ := p
    by_cases h : k0 = k
    · subst h
      simp only [alSet, eq_self_iff_true, if_true]
      rw [alCountKey_cons, alCountKey_cons]
      simp only [eq_self_iff_true, if_true]
      omega
    · simp only [alSet, if_neg h]
      rw [alCountKey_cons, alCountKey_cons, ih]
      simp only [if_neg h]
      omega

end AssocListLemmas

/-! ## General list helpers -/

theorem list_map_noop {α : Type} (l : List α) (f : α → α) (h : ∀ a ∈ l, f a = a) :
    l.map f = l := by
  induction l with
  | nil => rfl
  | cons x rest ih =>
    simp only [List.map_cons, h x (by simp)]
    rw [ih (fun a ha => h a (by simp [ha]))]

theorem list_filter_noop {α : Type} (l : List α) (p : α → Bool) (h : ∀ a ∈ l, p a = true) :
    l.filter p = l := by
  induction l with
  | nil => rfl
  | cons x rest ih =>
    simp only [List.filter_cons, h x (by simp), if_true]
    rw [ih (fun a ha => h a (by simp [ha]))]

theorem getLast_cons_of_some {α : Type} (x z : α) (l : List α)
    (h : l.getLast? = some z) : (x :: l).getLast? = some z := by
  cases l with
  | nil => simp at h
  | cons y ys => rw [List.getLast?_cons_cons]; exact h

/-! ## C9: idempotent upsert of saveBookmark -/

/-- C9: saving the same bookmark content twice yields exactly one stored
record under its id, the second save only advances `updatedAt` (to the
time of the second save) while every other field — id, url, title,
author, lastTimestamp, maxTimestamp, createdAt — is the same as after the
first save, and no second record is created. The hypothesis states that
the store, like any JS object, holds at most one entry for the key. -/
theorem saveBookmark_idempotent_upsert (s : Store) (b : VideoBookmark) (t1 t2 : Int)
    (hwf : alCountKey s b.id ≤ 1) :
    alCountKey (saveBookmark (saveBookmark s b t1) b t2) b.id = 1 ∧
    getBookmark (saveBookmark (saveBookmark s b t1) b t2) b.id = some { b with updatedAt := t2 } ∧
    getBookmark (saveBookmark s b t1) b.id = some { b with updatedAt := t1 } ∧
    (saveBookmark (saveBookmark s b t1) b t2).length = (saveBookmark s b t1).length := by
  have hid1 : ({ b with updatedAt := t1 } : VideoBookmark).id = b.id := rfl
  refine ⟨?_, ?_, ?_, ?_⟩
  · rw [saveBookmark, saveBookmark, alCountKey_alSet_self, alCountKey_alSet_self]
    omega
  · rw [saveBookmark, saveBookmark, getBookmark, alGet_alSet_self]
  · rw [saveBookmark, getBookmark, alGet_alSet_self]
  · rw [saveBookmark, saveBookmark, alSet_length]
    have : alGet (alSet s b.id { b with updatedAt := t1 }) b.id = some { b with updatedAt := t1 } :=
      alGet_alSet_self s b.id _
    simp [this]

/-- C9 witness at a concrete store holding one unrelated record. -/
theorem saveBookmark_idempotent_upsert_witness :
    alCountKey (saveBookmark (saveBookmark
        [("other", ⟨"other", "u0", "T0", "A0", 1, 2, 3, 4⟩)]
        ⟨"vid", "u", "T", "A", 10, 20, 30, 40⟩ 100) ⟨"vid", "u", "T", "A", 10, 20, 30, 40⟩ 200) "vid" = 1 ∧
    getBookmark (saveBookmark (saveBookmark
        [("other", ⟨"other", "u0", "T0", "A0", 1, 2, 3, 4⟩)]
        ⟨"vid", "u", "T", "A", 10, 20, 30, 40⟩ 100) ⟨"vid", "u", "T", "A", 10, 20, 30, 40⟩ 200) "vid" =
      some ⟨"vid", "u", "T", "A", 10, 20, 30, 200⟩ ∧
    getBookmark (saveBookmark
        [("other", ⟨"other", "u0", "T0", "A0", 1, 2, 3, 4⟩)]
        ⟨"vid", "u", "T", "A", 10, 20, 30, 40⟩ 100) "vid" =
      some ⟨"vid", "u", "T", "A", 10, 20, 30, 100⟩ ∧
    (saveBookmark (saveBookmark
        [("other", ⟨"other", "u0", "T0", "A0", 1, 2, 3, 4⟩)]
        ⟨"vid", "u", "T", "A", 10, 20, 30, 40⟩ 100) ⟨"vid", "u", "T", "A", 10, 20, 30, 40⟩ 200).length =
      (saveBookmark [("other", ⟨"other", "u0", "T0", "A0", 1, 2, 3, 4⟩)]
        ⟨"vid", "u", "T", "A", 10, 20, 30, 40⟩ 100).length :=
  saveBookmark_idempotent_upsert
    [("other", ⟨"other", "u0", "T0", "A0", 1, 2, 3, 4⟩)]
    ⟨"vid", "u", "T", "A", 10, 20, 30, 40⟩ 100 200 (by decide)

/-! ## C10: saveVideoState resets createdAt on every flush -/

/-- C10: a flush of an active session through `saveVideoState` stores a
record whose `createdAt` is the flush-time `Date.now()` (`tMk`) and whose
`updatedAt` is the re-stamp performed inside `saveBookmark` (`tSave`);
in particular, when the previously stored record was created at a
different time, that original creation time is overwritten. -/
theorem saveVideoState_resets_createdAt (s : Store) (v : ActiveVideo) (tMk tSave : Int) :
    getBookmark (saveVideoState s v tMk tSave) v.id =
      some { id := v.id, url := v.url, title := v.title, author := v.author,
             lastTimestamp := v.lastTimestamp, maxTimestamp := v.maxTimestamp,
             createdAt := tMk, updatedAt := tSave } ∧
    (∀ b0, getBookmark s v.id = some b0 → b0.createdAt ≠ tMk →
      (getBookmark (saveVideoState s v tMk tSave) v.id).map VideoBookmark.createdAt ≠
        some b0.createdAt) := by
  have h : getBookmark (saveVideoState s v tMk tSave) v.id =
      some { id := v.id, url := v.url, title := v.title, author := v.author,
             lastTimestamp := v.lastTimestamp, maxTimestamp := v.maxTimestamp,
             createdAt := tMk, updatedAt := tSave } := by
    rw [saveVideoState, saveBookmark, getBookmark]
    have := alGet_alSet_self s (mkBookmarkOfSession v tMk).id
      { mkBookmarkOfSession v tMk with updatedAt := tSave }
    simpa [mkBookmarkOfSession] using this
  refine ⟨h, fun b0 _ hne => ?_⟩
  rw [h]
  simpa using fun hh => hne hh.symm

/-- C10 witness: re-flushing over a record created at time 3 replaces its
creation time with the flush time 100. -/
theorem saveVideoState_resets_createdAt_witness :
    getBookmark (saveVideoState [("vid", ⟨"vid", "u", "T", "A", 1, 2, 3, 4⟩)]
        ⟨"vid", 7, "u", "T", "A", 50, 60, 0, false, false⟩ 100 101) "vid" =
      some ⟨"vid", "u", "T", "A", 50, 60, 100, 101⟩ ∧
    (getBookmark (saveVideoState [("vid", ⟨"vid", "u", "T", "A", 1, 2, 3, 4⟩)]
        ⟨"vid", 7, "u", "T", "A", 50, 60, 0, false, false⟩ 100 101) "vid").map
      VideoBookmark.createdAt ≠ some 3 :=
  ⟨(saveVideoState_resets_createdAt [("vid", ⟨"vid", "u", "T", "A", 1, 2, 3, 4⟩)]
      ⟨"vid", 7, "u", "T", "A", 50, 60, 0, false, false⟩ 100 101).1,
   (saveVideoState_resets_createdAt [("vid", ⟨"vid", "u", "T", "A", 1, 2, 3, 4⟩)]
      ⟨"vid", 7, "u", "T", "A", 50, 60, 0, false, false⟩ 100 101).2
     ⟨"vid", "u", "T", "A", 1, 2, 3, 4⟩ (by decide) (by decide)⟩

/-! ## C5: the Deleted state is terminal -/

theorem confirmFold_noop (l : Sessions) (videoId : String) (now : Int) (s : Store)
    (h : ∀ p ∈ l, p.2.id ≠ videoId) :
    l.foldl (fun s1 p => if p.2.id = videoId then saveVideoState s1 p.2 now now else s1) s = s := by
  induction l generalizing s with
  | nil => rfl
  | cons x rest ih =>
    simp only [List.foldl_cons, if_neg (h x (by simp))]
    exact ih s (fun a ha => h a (by simp [ha]))

/-- C5: once a video is Deleted — no session in the registry tracks its
id and the store holds no record for it — a further `UNDO_DELETE` or
`CONFIRM_DELETE` for that id leaves the coordinator's state (registry and
store) unchanged; the confirm handler moreover emits no broadcasts, its
`deleteBookmark` having thrown `NOT_FOUND`. -/
theorem deleted_state_terminal_noop (st : BgState) (videoId : String) (now : Int)
    (tabs : List Nat)
    (hsess : ∀ p ∈ st.activeVideos, p.2.id ≠ videoId)
    (hstore : getBookmark st.store videoId = none) :
    (bgHandleUndoDelete st videoId tabs).1 = st ∧
    (bgHandleConfirmDelete st videoId now tabs).1 = st ∧
    (bgHandleConfirmDelete st videoId now tabs).2 = [] := by
  obtain ⟨vids, store⟩ := st
  have hm : vids.map
      (fun p => if p.2.id = videoId then (p.1, { p.2 with pendingDeletion := false }) else p) =
      vids :=
    list_map_noop _ _ (fun a ha => if_neg (hsess a ha))
  have hf : vids.filter (fun p => p.2.id ≠ videoId) = vids :=
    list_filter_noop _ _ (fun a ha => by simpa using hsess a ha)
  have hfold : vids.foldl
      (fun s1 p => if p.2.id = videoId then saveVideoState s1 p.2 now now else s1) store = store :=
    confirmFold_noop vids videoId now store hsess
  have hdel : deleteBookmark store videoId = .error .NOT_FOUND := by
    unfold deleteBookmark
    rw [show alGet store videoId = none from hstore]
  refine ⟨?_, ?_, ?_⟩
  · simp [bgHandleUndoDelete, hm]
  · simp only [bgHandleConfirmDelete, hfold, hdel]
    simp
    exact fun a b hab => hsess (a, b) hab
  · simp only [bgHandleConfirmDelete, hfold, hdel]

/-- C5 witness: in a state whose only session and only record belong to a
different video, both handlers are no-ops for the deleted id. -/
theorem deleted_state_terminal_noop_witness :
    (bgHandleUndoDelete ⟨[(1, ⟨"b", 1, "u", "T", "A", 1, 2, 0, false, false⟩)],
        [("b", ⟨"b", "u", "T", "A", 1, 2, 3, 4⟩)]⟩ "gone" [1]).1 =
      ⟨[(1, ⟨"b", 1, "u", "T", "A", 1, 2, 0, false, false⟩)],
        [("b", ⟨"b", "u", "T", "A", 1, 2, 3, 4⟩)]⟩ ∧
    (bgHandleConfirmDelete ⟨[(1, ⟨"b", 1, "u", "T", "A", 1, 2, 0, false, false⟩)],
        [("b", ⟨"b", "u", "T", "A", 1, 2, 3, 4⟩)]⟩ "gone" 100 [1]).1 =
      ⟨[(1, ⟨"b", 1, "u", "T", "A", 1, 2, 0, false, false⟩)],
        [("b", ⟨"b", "u", "T", "A", 1, 2, 3, 4⟩)]⟩ ∧
    (bgHandleConfirmDelete ⟨[(1, ⟨"b", 1, "u", "T", "A", 1, 2, 0, false, false⟩)],
        [("b", ⟨"b", "u", "T", "A", 1, 2, 3, 4⟩)]⟩ "gone" 100 [1]).2 = [] :=
  deleted_state_terminal_noop
    ⟨[(1, ⟨"b", 1, "u", "T", "A", 1, 2, 0, false, false⟩)],
      [("b", ⟨"b", "u", "T", "A", 1, 2, 3, 4⟩)]⟩ "gone" 100 [1]
    (by decide) (by decide)

/-! ## C8: the periodic sweep and pendingDeletion -/

theorem sweepFold_skips_key (now : Int) (vid : String) :
    ∀ (l : Sessions) (s : Store),
    (∀ p ∈ l, p.2.id = vid → p.2.pendingDeletion = true) →
    alGet (l.foldl (sweepStep now) s) vid = alGet s vid := by
  intro l
  induction l with
  | nil => intro s _; rfl
  | cons x rest ih =>
    intro s h
    simp only [List.foldl_cons]
    rw [ih _ (fun a ha hid => h a (by simp [ha]) hid)]
    by_cases hp : x.2.pendingDeletion
    · simp [sweepStep, hp]
    · have hpx : x.2.pendingDeletion = false := by simpa using hp
      have hne : x.2.id ≠ vid := fun he => by
        have := h x (by simp) he
        rw [hpx] at this
        exact Bool.false_ne_true this
      simp only [sweepStep, hpx, Bool.not_false, if_true, saveVideoState, saveBookmark]
      exact alGet_alSet_ne _ _ _ _ (Ne.symm hne)

theorem sweepFold_key_cases (now : Int) (vid : String) :
    ∀ (l : Sessions) (s : Store),
    alGet (l.foldl (sweepStep now) s) vid = alGet s vid ∨
    ∃ q, q ∈ l ∧ q.2.pendingDeletion = false ∧ q.2.id = vid ∧
      alGet (l.foldl (sweepStep now) s) vid = some (mkBookmarkOfSession q.2 now) := by
  intro l
  induction l with
  | nil => intro s; left; rfl
  | cons x rest ih =>
    intro s
    simp only [List.foldl_cons]
    rcases ih (sweepStep now s x) with h | ⟨q, hq, hqp, hqid, hval⟩
    · by_cases hp : x.2.pendingDeletion
      · left
        rw [h]
        simp [sweepStep, hp]
      · have hpx : x.2.pendingDeletion = false := by simpa using hp
        by_cases hid : x.2.id = vid
        · right
          refine ⟨x, by simp, hpx, hid, ?_⟩
          rw [h]
          simp only [sweepStep, hpx, Bool.not_false, if_true, saveVideoState, saveBookmark]
          rw [← hid]
          exact alGet_alSet_self _ _ _
        · left
          rw [h]
          simp only [sweepStep, hpx, Bool.not_false, if_true, saveVideoState, saveBookmark]
          exact alGet_alSet_ne _ _ _ _ (Ne.symm hid)
    · right
      exact ⟨q, by simp [hq], hqp, hqid, hval⟩

theorem sweepFold_persists (now : Int) :
    ∀ (l : Sessions) (s : Store), ∀ p ∈ l, p.2.pendingDeletion = false →
    ∃ q, q ∈ l ∧ q.2.pendingDeletion = false ∧ q.2.id = p.2.id ∧
      alGet (l.foldl (sweepStep now) s) p.2.id = some (mkBookmarkOfSession q.2 now) := by
  intro l
  induction l with
  | nil => intro s p hp; cases hp
  | cons x rest ih =>
    intro s p hp hpend
    rcases List.mem_cons.mp hp with heq | hmem
    · subst heq
      rcases sweepFold_key_cases now p.2.id rest (sweepStep now s p) with h | ⟨q, hq, hqp, hqid, hval⟩
      · refine ⟨p, by simp, hpend, rfl, ?_⟩
        simp only [List.foldl_cons]
        rw [h]
        simp only [sweepStep, hpend, Bool.not_false, if_true, saveVideoState, saveBookmark]
        exact alGet_alSet_self _ _ _
      · exact ⟨q, by simp [hq], hqp, hqid, by simpa only [List.foldl_cons] using hval⟩
    · obtain ⟨q, hq, hqp, hqid, hval⟩ := ih (sweepStep now s x) p hmem hpend
      exact ⟨q, by simp [hq], hqp, hqid, by simpa only [List.foldl_cons] using hval⟩

/-- C8 counterexample: with one session of video `v` pending deletion in
tab 1 and a second, non-pending session of the same video in tab 2, the
sweep rewrites the durable record of `v` — it is not left unchanged. -/
theorem periodicSave_pending_record_overwritten :
    getBookmark (⟨[(1, ⟨"v", 1, "u", "T", "A", 10, 20, 0, false, true⟩),
                   (2, ⟨"v", 2, "u", "T", "A", 30, 40, 0, false, false⟩)],
                  [("v", ⟨"v", "u", "T", "A", 1, 2, 3, 4⟩)]⟩ : BgState).store "v" =
      some ⟨"v", "u", "T", "A", 1, 2, 3, 4⟩ ∧
    getBookmark (periodicSave
        ⟨[(1, ⟨"v", 1, "u", "T", "A", 10, 20, 0, false, true⟩),
          (2, ⟨"v", 2, "u", "T", "A", 30, 40, 0, false, false⟩)],
         [("v", ⟨"v", "u", "T", "A", 1, 2, 3, 4⟩)]⟩ 100).store "v" =
      some ⟨"v", "u", "T", "A", 30, 40, 100, 100⟩ ∧
    (⟨"v", "u", "T", "A", 1, 2, 3, 4⟩ : VideoBookmark) ≠
      ⟨"v", "u", "T", "A", 30, 40, 100, 100⟩ := by
  refine ⟨rfl, rfl, by decide⟩

/-- C8 amended: a `pendingDeletion` session triggers no save of its own —
when every session of a video id is pending (or none exists) the sweep
leaves that id's durable record unchanged — and every session with
`pendingDeletion` unset is persisted: after the sweep, its id's record is
the flush of some non-pending session of that id (when several tabs hold
the same video, the one whose save runs last wins). -/
theorem periodicSave_amended :
    (∀ (st : BgState) (now : Int) (vid : String),
       (∀ p ∈ st.activeVideos, p.2.id = vid → p.2.pendingDeletion = true) →
       getBookmark (periodicSave st now).store vid = getBookmark st.store vid) ∧
    (∀ (st : BgState) (now : Int), ∀ p ∈ st.activeVideos, p.2.pendingDeletion = false →
       ∃ q, q ∈ st.activeVideos ∧ q.2.pendingDeletion = false ∧ q.2.id = p.2.id ∧
         getBookmark (periodicSave st now).store p.2.id =
           some (mkBookmarkOfSession q.2 now)) := by
  constructor
  · intro st now vid h
    exact sweepFold_skips_key now vid st.activeVideos st.store h
  · intro st now p hp hpend
    exact sweepFold_persists now st.activeVideos st.store p hp hpend

/-- C8 amended witness: the all-pending state keeps its record, and a
live session is persisted by the sweep. -/
theorem periodicSave_amended_witness :
    getBookmark (periodicSave ⟨[(1, ⟨"v", 1, "u", "T", "A", 10, 20, 0, false, true⟩)],
        [("v", ⟨"v", "u", "T", "A", 1, 2, 3, 4⟩)]⟩ 100).store "v" =
      getBookmark [("v", ⟨"v", "u", "T", "A", 1, 2, 3, 4⟩)] "v" ∧
    ∃ q, q ∈ ([(2, ⟨"w", 2, "u", "T", "A", 30, 40, 0, false, false⟩)] : Sessions) ∧
      q.2.pendingDeletion = false ∧ q.2.id = "w" ∧
      getBookmark (periodicSave ⟨[(2, ⟨"w", 2, "u", "T", "A", 30, 40, 0, false, false⟩)],
          []⟩ 100).store "w" = some (mkBookmarkOfSession q.2 100) :=
  ⟨periodicSave_amended.1 ⟨[(1, ⟨"v", 1, "u", "T", "A", 10, 20, 0, false, true⟩)],
      [("v", ⟨"v", "u", "T", "A", 1, 2, 3, 4⟩)]⟩ 100 "v" (by decide),
   periodicSave_amended.2 ⟨[(2, ⟨"w", 2, "u", "T", "A", 30, 40, 0, false, false⟩)], []⟩ 100
      (2, ⟨"w", 2, "u", "T", "A", 30, 40, 0, false, false⟩) (by simp) (by decide)⟩

/-! ## C1: timestamp updates and the maximum position -/

theorem updateStep_session_mono (st : BgState) (tabId : Nat) (videoId : String)
    (ts now : Int) (tab : Nat) (v0 : ActiveVideo)
    (hv : alGet st.activeVideos tab = some v0) :
    ∃ v1, alGet (bgHandleUpdateTimestamp st tabId videoId ts false now).activeVideos tab = some v1 ∧
      v1.id = v0.id ∧ v0.maxTimestamp ≤ v1.maxTimestamp := by
  unfold bgHandleUpdateTimestamp
  cases hw : alGet st.activeVideos tabId with
  | none => exact ⟨v0, hv, rfl, le_refl v0.maxTimestamp⟩
  | some w =>
    dsimp only
    by_cases hid : w.id = videoId
    · rw [if_neg (fun h => h hid)]
      by_cases htab : tab = tabId
      · subst htab
        obtain rfl : w = v0 := by rw [hw] at hv; exact Option.some_injective _ hv
        refine ⟨_, alGet_alSet_self _ _ _, rfl, ?_⟩
        simp only [Bool.false_or, decide_eq_true_eq]
        split_ifs with hlt
        · exact le_of_lt hlt
        · exact le_refl _
      · rw [alGet_alSet_ne _ _ _ _ htab]
        exact ⟨v0, hv, rfl, le_refl v0.maxTimestamp⟩
    · rw [if_pos hid]
      exact ⟨v0, hv, rfl, le_refl v0.maxTimestamp⟩

/-- C1 counterexample: a session at `maxTimestamp = 10` receiving an
update with `timestamp = 7` and the max hint set ends with session and
stored `maxTimestamp = 7 < 10` — the maximum regressed, so it is not
non-decreasing over arbitrary update sequences. -/
theorem updateTimestamp_maxHint_decreases :
    (alGet (bgHandleUpdateTimestamp
        ⟨[(1, ⟨"a", 1, "u", "T", "B", 10, 10, 0, false, false⟩)], []⟩
        1 "a" 7 true 100).activeVideos 1).map (fun v => v.maxTimestamp) = some 7 ∧
    getBookmark (bgHandleUpdateTimestamp
        ⟨[(1, ⟨"a", 1, "u", "T", "B", 10, 10, 0, false, false⟩)], []⟩
        1 "a" 7 true 100).store "a" = some ⟨"a", "u", "T", "B", 7, 7, 100, 100⟩ ∧
    (7 : Int) < 10 := by
  refine ⟨rfl, rfl, by decide⟩

/-- C1 amended: an update that matches the tab's session always leaves
it (and the record it flushes) with `maxTimestamp ≥ lastTimestamp`, and
with the max hint unset the maximum never decreases — over any sequence
of hint-free updates it is non-decreasing; an update with `isMaxTimestamp`
set instead forces `maxTimestamp = timestamp`, which can lower it. -/
theorem updateTimestamp_amended :
    (∀ (st : BgState) (tabId : Nat) (videoId : String) (ts : Int) (isMaxFlag : Bool)
       (now : Int) (v : ActiveVideo),
       alGet st.activeVideos tabId = some v → v.id = videoId →
       ∃ v1,
         alGet (bgHandleUpdateTimestamp st tabId videoId ts isMaxFlag now).activeVideos tabId =
           some v1 ∧
         v1.id = v.id ∧ v1.lastTimestamp = ts ∧
         v1.lastTimestamp ≤ v1.maxTimestamp ∧
         (isMaxFlag = false → v.maxTimestamp ≤ v1.maxTimestamp) ∧
         getBookmark (bgHandleUpdateTimestamp st tabId videoId ts isMaxFlag now).store videoId =
           some (mkBookmarkOfSession v1 now)) ∧
    (∀ (st : BgState) (msgs : List UpdateMsg),
       (∀ mm ∈ msgs, mm.isMaxTimestamp = false) →
       ∀ (tab : Nat) (v0 : ActiveVideo), alGet st.activeVideos tab = some v0 →
       ∃ v1, alGet (applyUpdates st msgs).activeVideos tab = some v1 ∧
         v1.id = v0.id ∧ v0.maxTimestamp ≤ v1.maxTimestamp) := by
  constructor
  · intro st tabId videoId ts isMaxFlag now v hv hid
    unfold bgHandleUpdateTimestamp
    rw [hv]
    dsimp only
    rw [if_neg (fun h => h hid)]
    refine ⟨_, alGet_alSet_self _ _ _, rfl, rfl, ?_, ?_, ?_⟩
    · simp only [decide_eq_true_eq]
      split_ifs with hc
      · exact le_refl ts
      · rcases Bool.or_eq_false_iff.mp (Bool.eq_false_iff.mpr hc) with ⟨_, hd⟩
        have := of_decide_eq_false hd
        exact le_of_not_lt this
    · intro hflag
      subst hflag
      simp only [Bool.false_or, decide_eq_true_eq]
      split_ifs with hlt
      · exact le_of_lt hlt
      · exact le_refl _
    · rw [← hid]
      exact alGet_alSet_self _ _ _
  · intro st msgs
    induction msgs generalizing st with
    | nil => exact fun _ tab v0 hv => ⟨v0, hv, rfl, le_refl v0.maxTimestamp⟩
    | cons mm rest ih =>
      intro hmsgs tab v0 hv
      have hm0 : mm.isMaxTimestamp = false := hmsgs mm (by simp)
      simp only [applyUpdates, List.foldl_cons, hm0]
      obtain ⟨v1, hv1, hid1, hle1⟩ :=
        updateStep_session_mono st mm.tabId mm.videoId mm.timestamp mm.now tab v0 hv
      obtain ⟨v2, hv2, hid2, hle2⟩ :=
        ih (bgHandleUpdateTimestamp st mm.tabId mm.videoId mm.timestamp false mm.now)
          (fun a ha => hmsgs a (by simp [ha])) tab v1 hv1
      exact ⟨v2, hv2, hid2.trans hid1, le_trans hle1 hle2⟩

/-- C1 amended witness: the spec's own scenario — `last = max = 10`, a
hint-free update to 7 keeps `max = 10 ≥ 7`. -/
theorem updateTimestamp_amended_witness :
    (∃ v1,
       alGet (bgHandleUpdateTimestamp
           ⟨[(1, ⟨"a", 1, "u", "T", "B", 10, 10, 0, false, false⟩)], []⟩
           1 "a" 7 false 100).activeVideos 1 = some v1 ∧
       v1.id = (⟨"a", 1, "u", "T", "B", 10, 10, 0, false, false⟩ : ActiveVideo).id ∧
       v1.lastTimestamp = 7 ∧ v1.lastTimestamp ≤ v1.maxTimestamp ∧
       ((false : Bool) = false →
         (⟨"a", 1, "u", "T", "B", 10, 10, 0, false, false⟩ : ActiveVideo).maxTimestamp ≤
           v1.maxTimestamp) ∧
       getBookmark (bgHandleUpdateTimestamp
           ⟨[(1, ⟨"a", 1, "u", "T", "B", 10, 10, 0, false, false⟩)], []⟩
           1 "a" 7 false 100).store "a" = some (mkBookmarkOfSession v1 100)) ∧
    (∃ v1,
       alGet (applyUpdates
           ⟨[(1, ⟨"a", 1, "u", "T", "B", 10, 10, 0, false, false⟩)], []⟩
           [⟨1, "a", 7, false, 100⟩]).activeVideos 1 = some v1 ∧
       v1.id = (⟨"a", 1, "u", "T", "B", 10, 10, 0, false, false⟩ : ActiveVideo).id ∧
       (⟨"a", 1, "u", "T", "B", 10, 10, 0, false, false⟩ : ActiveVideo).maxTimestamp ≤
         v1.maxTimestamp) :=
  ⟨updateTimestamp_amended.1
      ⟨[(1, ⟨"a", 1, "u", "T", "B", 10, 10, 0, false, false⟩)], []⟩
      1 "a" 7 false 100 ⟨"a", 1, "u", "T", "B", 10, 10, 0, false, false⟩ rfl rfl,
   updateTimestamp_amended.2
      ⟨[(1, ⟨"a", 1, "u", "T", "B", 10, 10, 0, false, false⟩)], []⟩
      [⟨1, "a", 7, false, 100⟩] (by decide)
      1 ⟨"a", 1, "u", "T", "B", 10, 10, 0, false, false⟩ rfl⟩

/-! ## C3: tab-switch flush -/

/-- C3: when a tab tracking video `A` reports detection of a different
video (with a URL whose extracted id matches the message), the handler
first persists `A`'s last in-memory `lastTimestamp`/`maxTimestamp` under
`A`'s id — so `getBookmark(A)` afterwards reflects `A`'s last state, not
the new video's — and `A`'s session is evicted: the tab afterwards either
has no session or one tracking the new video id. -/
theorem videoDetected_flushes_previous (st : BgState) (m : VideoDetectedMsg) (now : Int)
    (auto : Bool) (A : ActiveVideo)
    (hA : alGet st.activeVideos m.tabId = some A)
    (hDiff : A.id ≠ m.videoId)
    (hUrl : extractVideoId m.url = some m.videoId) :
    getBookmark (bgHandleVideoDetected st m now auto).store A.id =
      some ⟨A.id, A.url, A.title, A.author, A.lastTimestamp, A.maxTimestamp, now, now⟩ ∧
    (alGet (bgHandleVideoDetected st m now auto).activeVideos m.tabId = none ∨
     ∃ v1, alGet (bgHandleVideoDetected st m now auto).activeVideos m.tabId = some v1 ∧
       v1.id = m.videoId) := by
  have hstoreEq : alGet (saveVideoState st.store { A with lastUpdate := now } now now) A.id =
      some ⟨A.id, A.url, A.title, A.author, A.lastTimestamp, A.maxTimestamp, now, now⟩ := by
    simp only [saveVideoState, saveBookmark]
    exact alGet_alSet_self _ _ _
  unfold bgHandleVideoDetected
  rw [if_neg (by simp [hUrl])]
  rw [hA]
  dsimp only
  simp only [if_pos hDiff]
  split_ifs with hmeta
  · exact ⟨hstoreEq, Or.inl (alGet_alErase_self _ _)⟩
  · exact ⟨hstoreEq, Or.inr ⟨_, alGet_alSet_self _ _ _, rfl⟩⟩

/-- C3 witness: tab 5 tracked `A1` at positions 11/22; detecting `B2`
stores `A1`'s record with those positions and installs a `B2` session. -/
theorem videoDetected_flushes_previous_witness :
    getBookmark (bgHandleVideoDetected
        ⟨[(5, ⟨"A1", 5, "uA", "TA", "AA", 11, 22, 0, false, false⟩)], []⟩
        ⟨5, "B2", "https://youtube.com/watch?v=B2", "TB", "AB", none, none⟩
        100 false).store "A1" =
      some ⟨"A1", "uA", "TA", "AA", 11, 22, 100, 100⟩ ∧
    (alGet (bgHandleVideoDetected
        ⟨[(5, ⟨"A1", 5, "uA", "TA", "AA", 11, 22, 0, false, false⟩)], []⟩
        ⟨5, "B2", "https://youtube.com/watch?v=B2", "TB", "AB", none, none⟩
        100 false).activeVideos 5 = none ∨
     ∃ v1, alGet (bgHandleVideoDetected
        ⟨[(5, ⟨"A1", 5, "uA", "TA", "AA", 11, 22, 0, false, false⟩)], []⟩
        ⟨5, "B2", "https://youtube.com/watch?v=B2", "TB", "AB", none, none⟩
        100 false).activeVideos 5 = some v1 ∧ v1.id = "B2") :=
  videoDetected_flushes_previous
    ⟨[(5, ⟨"A1", 5, "uA", "TA", "AA", 11, 22, 0, false, false⟩)], []⟩
    ⟨5, "B2", "https://youtube.com/watch?v=B2", "TB", "AB", none, none⟩
    100 false ⟨"A1", 5, "uA", "TA", "AA", 11, 22, 0, false, false⟩
    rfl (by decide) (by decide)

/-! ## C2: who holds the deletion countdown -/

/-- C2 counterexample: the background coordinator's `handleInitiateDelete`
emits only the `INITIATE_DELETE` broadcasts — it starts no 5000 ms
countdown (no `setTimeout` at all), here shown at a concrete state with a
tracked session of the video and two YouTube tabs. -/
theorem initiateDelete_no_coordinator_countdown :
    (bgHandleInitiateDelete ⟨[(1, ⟨"v", 1, "u", "T", "A", 10, 20, 0, false, false⟩)],
        [("v", ⟨"v", "u", "T", "A", 10, 20, 3, 4⟩)]⟩ "v" [1, 2]).2 =
      [Effect.sendTab 1 (.initiateDelete "v"), Effect.sendTab 2 (.initiateDelete "v")] ∧
    ((bgHandleInitiateDelete ⟨[(1, ⟨"v", 1, "u", "T", "A", 10, 20, 0, false, false⟩)],
        [("v", ⟨"v", "u", "T", "A", 10, 20, 3, 4⟩)]⟩ "v" [1, 2]).2.filter
      Effect.isCountdownTimer) = [] := by
  exact ⟨rfl, rfl⟩

/-- C2 amended: the deletion countdowns live at the observers, not the
coordinator. The coordinator's `handleInitiateDelete` only flags matching
sessions and broadcasts (no timer, store untouched); the popup's
`handleInitiateDelete` starts exactly one 5000 ms `setTimeout` whose
firing sends `CONFIRM_DELETE`; the coordinator performs the Deleted
transition when it handles `CONFIRM_DELETE` — afterwards no record and no
session for the id remain; the popup's undo handler starts no countdown
(it clears the stored timers). -/
theorem deletion_countdowns_at_observers :
    (∀ (st : BgState) (videoId : String) (tabs : List Nat),
       (bgHandleInitiateDelete st videoId tabs).2 =
         tabs.map (fun t => Effect.sendTab t (.initiateDelete videoId)) ∧
       (bgHandleInitiateDelete st videoId tabs).1.store = st.store) ∧
    (∀ (ps : PopupState) (id : String),
       ((popupHandleInitiateDelete ps id).2.filter Effect.isCountdownTimer) =
         [Effect.setTimeoutMs 5000 (.confirmDelete id)]) ∧
    (∀ (st : BgState) (videoId : String) (now : Int) (tabs : List Nat),
       getBookmark (bgHandleConfirmDelete st videoId now tabs).1.store videoId = none ∧
       ∀ p ∈ (bgHandleConfirmDelete st videoId now tabs).1.activeVideos, p.2.id ≠ videoId) ∧
    (∀ (ps : PopupState) (id : String),
       ((popupHandleUndo ps id).2.filter Effect.isCountdownTimer) = []) := by
  refine ⟨fun st videoId tabs => ⟨rfl, rfl⟩, ?_, ?_, ?_⟩
  · intro ps id
    by_cases h : ps.timerRefs.contains id <;>
      simp [popupHandleInitiateDelete, h, List.filter, Effect.isCountdownTimer]
  · intro st videoId now tabs
    constructor
    · unfold bgHandleConfirmDelete
      cases hg : alGet (st.activeVideos.foldl
          (fun s1 p => if p.2.id = videoId then saveVideoState s1 p.2 now now else s1)
          st.store) videoId with
      | none =>
        simp only [deleteBookmark, hg]
        exact hg
      | some b =>
        simp only [deleteBookmark, hg]
        exact alGet_alErase_self _ _
    · intro p hp
      have : p ∈ st.activeVideos.filter (fun q => q.2.id ≠ videoId) := by
        unfold bgHandleConfirmDelete at hp
        cases hg : deleteBookmark (st.activeVideos.foldl
            (fun s1 q => if q.2.id = videoId then saveVideoState s1 q.2 now now else s1)
            st.store) videoId with
        | error e => simpa [hg] using hp
        | ok s2 => simpa [hg] using hp
      simpa using (List.mem_filter.mp this).2
  · intro ps id
    by_cases h : ps.timerRefs.contains id <;>
      simp [popupHandleUndo, h, List.filter, Effect.isCountdownTimer]

/-- C2 amended witness at concrete states: broadcasts without timer at
the coordinator, the popup's single 5000 ms confirm timer, and the
Deleted transition on confirm. -/
theorem deletion_countdowns_at_observers_witness :
    ((bgHandleInitiateDelete ⟨[(1, ⟨"v", 1, "u", "T", "A", 10, 20, 0, false, false⟩)], []⟩
        "v" [1, 2]).2 = [1, 2].map (fun t => Effect.sendTab t (.initiateDelete "v")) ∧
     (bgHandleInitiateDelete ⟨[(1, ⟨"v", 1, "u", "T", "A", 10, 20, 0, false, false⟩)], []⟩
        "v" [1, 2]).1.store = ([] : Store)) ∧
    ((popupHandleInitiateDelete ⟨[], []⟩ "v").2.filter Effect.isCountdownTimer) =
      [Effect.setTimeoutMs 5000 (.confirmDelete "v")] ∧
    (getBookmark (bgHandleConfirmDelete
        ⟨[(1, ⟨"v", 1, "u", "T", "A", 10, 20, 0, false, true⟩)],
         [("v", ⟨"v", "u", "T", "A", 10, 20, 3, 4⟩)]⟩ "v" 100 [1]).1.store "v" = none ∧
     ∀ p ∈ (bgHandleConfirmDelete
        ⟨[(1, ⟨"v", 1, "u", "T", "A", 10, 20, 0, false, true⟩)],
         [("v", ⟨"v", "u", "T", "A", 10, 20, 3, 4⟩)]⟩ "v" 100 [1]).1.activeVideos,
       p.2.id ≠ "v") :=
  ⟨deletion_countdowns_at_observers.1
      ⟨[(1, ⟨"v", 1, "u", "T", "A", 10, 20, 0, false, false⟩)], []⟩ "v" [1, 2],
   deletion_countdowns_at_observers.2.1 ⟨[], []⟩ "v",
   deletion_countdowns_at_observers.2.2.1
      ⟨[(1, ⟨"v", 1, "u", "T", "A", 10, 20, 0, false, true⟩)],
       [("v", ⟨"v", "u", "T", "A", 10, 20, 3, 4⟩)]⟩ "v" 100 [1]⟩

/-! ## C4: the repair pass can emit a record that fails validation -/

/-- C4: feeding `repairBookmark` a non-object yields no record, as
claimed; but an object input is not always repaired to a §3-valid
record: for `\x7b lastTimestamp: "5" \x7d` the `bookmark.lastTimestamp || 0`
fallback assigns the raw string `"5"` to `maxTimestamp`, the final
`maxTimestamp < lastTimestamp` fix-up does not fire (`"5" < 0` is false),
and `isValidBookmark` rejects the result on its `typeof maxTimestamp`
check. The spec's own example (`lastPosition: -5`, `maxTimestamp`
missing) does repair to a valid record, isolating the slip. -/
theorem repairBookmark_emits_rejected_record :
    repairBookmark "vid123" (.prim .null) 1000 = none ∧
    repairBookmark "vid123" (.prim (.str "junk")) 1000 = none ∧
    (∃ r, repairBookmark "vid123"
        (.obj ⟨.undef, .undef, .undef, .undef, .str "5", .undef, .undef, .undef⟩) 1000 =
          some r ∧
      r.maxTimestamp = .str "5" ∧
      isValidBookmark (.obj r) 1000 = false) ∧
    (∃ r2, repairBookmark "vid123"
        (.obj ⟨.undef, .undef, .undef, .undef, .num (-5), .undef, .undef, .undef⟩) 1000 =
          some r2 ∧
      isValidBookmark (.obj r2) 1000 = true) := by
  refine ⟨rfl, rfl, ⟨_, rfl, by decide, by decide⟩, ⟨_, rfl, by decide⟩⟩

/-! ## C6/C7: the retry executor -/

theorem retryGo_zero {α ε : Type} (op : String) (cfg : RetryConfig)
    (fn : Nat → FnBehavior α ε) (a t : Nat) :
    retryGo op cfg fn 0 a t =
      { result := .failure { operation := op, attempts := a, lastError := .unknownErr } t
        invocations := 0, delays := [], errors := [] } := rfl

theorem retryGo_succ {α ε : Type} (op : String) (cfg : RetryConfig)
    (fn : Nat → FnBehavior α ε) (fuel a t : Nat) :
    retryGo op cfg fn (fuel + 1) a t =
      retryStep op cfg fn a t fuel (retryGo op cfg fn fuel) := rfl

theorem retryGo_pos_invocations {α ε : Type} (op : String) (cfg : RetryConfig)
    (fn : Nat → FnBehavior α ε) (fuel a t : Nat) :
    1 ≤ (retryGo op cfg fn (fuel + 1) a t).invocations := by
  rw [retryGo_succ]
  cases h : racedAttempt op cfg (fn (a + 1)) t with
  | ok v t1 => simp [retryStep, h]
  | never => simp [retryStep, h]
  | err e t1 =>
    cases fuel with
    | zero => simp [retryStep, h]
    | succ f1 => simp [retryStep, h]

theorem retryGo_invocations_le {α ε : Type} (op : String) (cfg : RetryConfig)
    (fn : Nat → FnBehavior α ε) :
    ∀ (fuel a t : Nat), (retryGo op cfg fn fuel a t).invocations ≤ fuel := by
  intro fuel
  induction fuel with
  | zero => intro a t; simp [retryGo_zero]
  | succ f ih =>
    intro a t
    rw [retryGo_succ]
    cases h : racedAttempt op cfg (fn (a + 1)) t with
    | ok v t1 => simp [retryStep, h]
    | never => simp [retryStep, h]
    | err e t1 =>
      cases f with
      | zero => simp [retryStep, h]
      | succ f1 =>
        simp only [retryStep, h]
        have := ih (a + 1) (t1 + calculateDelay a cfg)
        omega

theorem retryGo_delay_getD {α ε : Type} (op : String) (cfg : RetryConfig)
    (fn : Nat → FnBehavior α ε) :
    ∀ (fuel a t k : Nat), k < (retryGo op cfg fn fuel a t).delays.length →
      (retryGo op cfg fn fuel a t).delays.getD k 0 = calculateDelay (a + k) cfg := by
  intro fuel
  induction fuel with
  | zero => intro a t k hk; simp [retryGo_zero] at hk
  | succ f ih =>
    intro a t k hk
    rw [retryGo_succ] at hk ⊢
    cases h : racedAttempt op cfg (fn (a + 1)) t with
    | ok v t1 => simp [retryStep, h] at hk
    | never => simp [retryStep, h] at hk
    | err e t1 =>
      cases f with
      | zero => simp [retryStep, h] at hk
      | succ f1 =>
        simp only [retryStep, h] at hk ⊢
        cases k with
        | zero => simp
        | succ j =>
          simp only [List.length_cons, Nat.add_lt_add_iff_right] at hk
          simp only [List.getD_cons_succ]
          rw [ih (a + 1) (t1 + calculateDelay a cfg) j hk]
          congr 1
          omega

theorem retryGo_failure_spec {α ε : Type} (op : String) (cfg : RetryConfig)
    (fn : Nat → FnBehavior α ε) :
    ∀ (fuel a t : Nat) (e : RetryError ε) (time : Nat),
      (retryGo op cfg fn fuel a t).result = .failure e time →
      e.operation = op ∧ e.attempts = a + (retryGo op cfg fn fuel a t).invocations ∧
      (retryGo op cfg fn fuel a t).invocations = fuel ∧
      ((retryGo op cfg fn fuel a t).errors.getLast? = some e.lastError ∨
       (fuel = 0 ∧ e.lastError = .unknownErr)) := by
  intro fuel
  induction fuel with
  | zero =>
    intro a t e time hres
    simp only [retryGo_zero, RetryResult.failure.injEq] at hres
    obtain ⟨he, _⟩ := hres
    subst he
    exact ⟨rfl, rfl, rfl, Or.inr ⟨rfl, rfl⟩⟩
  | succ f ih =>
    intro a t e time hres
    rw [retryGo_succ] at hres ⊢
    cases h : racedAttempt op cfg (fn (a + 1)) t with
    | ok v t1 => simp [retryStep, h] at hres
    | never => simp [retryStep, h] at hres
    | err e1 t1 =>
      cases f with
      | zero =>
        simp only [retryStep, h, RetryResult.failure.injEq] at hres
        obtain ⟨he, _⟩ := hres
        subst he
        simp [retryStep, h]
      | succ f1 =>
        simp only [retryStep, h] at hres ⊢
        obtain ⟨hop, hatt, hinv, hlast⟩ :=
          ih (a + 1) (t1 + calculateDelay a cfg) e time hres
        refine ⟨hop, by omega, by omega, ?_⟩
        left
        rcases hlast with hlast | ⟨hf, _⟩
        · rcases hx : (retryGo op cfg fn (f1 + 1) (a + 1)
              (t1 + calculateDelay a cfg)).errors with _ | ⟨y, ys⟩
          · rw [hx] at hlast; simp at hlast
          · rw [hx] at hlast
            simpa [hx] using getLast_cons_of_some e1 e.lastError (y :: ys) hlast
        · exact absurd hf (Nat.succ_ne_zero f1)


/-- C6: for every operation name, wrapped function and configuration, the
retry loop invokes the function at most `maxAttempts` times; the k-th
backoff sleep — performed after failed attempt k+1, before retry attempt
k+2 — is `min(initialDelay * backoffFactor^k, maxDelay)`; and on overall
failure the thrown `RetryError` carries the operation name, the number of
attempts performed (all `maxAttempts` of them), and the last caught
underlying error. -/
theorem withRetry_contract {α ε : Type} (op : String) (cfg : RetryConfig)
    (fnSpec : Nat → FnBehavior α ε) :
    (withRetry op cfg fnSpec).invocations ≤ cfg.maxAttempts ∧
    (∀ k, k < (withRetry op cfg fnSpec).delays.length →
       (withRetry op cfg fnSpec).delays.getD k 0 =
         min (cfg.initialDelay * cfg.backoffFactor ^ k) cfg.maxDelay) ∧
    (∀ (e : RetryError ε) (time : Nat),
       (withRetry op cfg fnSpec).result = .failure e time →
       e.operation = op ∧
       e.attempts = (withRetry op cfg fnSpec).invocations ∧
       (withRetry op cfg fnSpec).invocations = cfg.maxAttempts ∧
       ((withRetry op cfg fnSpec).errors.getLast? = some e.lastError ∨
        (cfg.maxAttempts = 0 ∧ e.lastError = .unknownErr))) := by
  refine ⟨retryGo_invocations_le op cfg fnSpec cfg.maxAttempts 0 0, ?_, ?_⟩
  · intro k hk
    have := retryGo_delay_getD op cfg fnSpec cfg.maxAttempts 0 0 k hk
    simpa [calculateDelay] using this
  · intro e time hres
    obtain ⟨hop, hatt, hinv, hlast⟩ :=
      retryGo_failure_spec op cfg fnSpec cfg.maxAttempts 0 0 e time hres
    exact ⟨hop, by simpa using hatt, hinv, hlast⟩

/-- C6 witness: two 1 ms-failing attempts under
`maxAttempts = 2, initialDelay = 500`: one 500 ms backoff sleep, and the
final `RetryError` carries the operation name, both attempts and the last
underlying error. -/
theorem withRetry_contract_witness :
    (withRetry "save bookmark" exRetryCfg exRetryFn).invocations ≤ 2 ∧
    (withRetry "save bookmark" exRetryCfg exRetryFn).delays.getD 0 0 =
      min (500 * 2 ^ 0) 5000 ∧
    (({ operation := "save bookmark", attempts := 2,
        lastError := RaceErr.underlying 0 } : RetryError Nat).operation = "save bookmark" ∧
     ({ operation := "save bookmark", attempts := 2,
        lastError := RaceErr.underlying 0 } : RetryError Nat).attempts =
       (withRetry "save bookmark" exRetryCfg exRetryFn).invocations ∧
     (withRetry "save bookmark" exRetryCfg exRetryFn).invocations = 2 ∧
     ((withRetry "save bookmark" exRetryCfg exRetryFn).errors.getLast? =
        some (RaceErr.underlying 0) ∨
      ((2 : Nat) = 0 ∧ (RaceErr.underlying 0 : RaceErr Nat) = .unknownErr))) :=
  ⟨(withRetry_contract "save bookmark" exRetryCfg exRetryFn).1,
   (withRetry_contract "save bookmark" exRetryCfg exRetryFn).2.1 0 (by decide),
   (withRetry_contract "save bookmark" exRetryCfg exRetryFn).2.2
     { operation := "save bookmark", attempts := 2, lastError := RaceErr.underlying 0 }
     502 (by decide)⟩

theorem racedAttempt_after_timer {α ε : Type} (op : String) (cfg : RetryConfig) (T : Nat)
    (b : FnBehavior α ε) (t : Nat)
    (hT : effectiveTimeout cfg = some T) (ht : T ≤ t) :
    racedAttempt op cfg b t = .err (.timedOut op T) t := by
  unfold racedAttempt
  rw [hT]
  dsimp only
  rw [if_pos ht]

theorem retryGo_after_timer {α ε : Type} (op : String) (cfg : RetryConfig) (T : Nat)
    (fn : Nat → FnBehavior α ε) :
    ∀ (fuel a t : Nat), effectiveTimeout cfg = some T → T ≤ t →
    ∃ e time, (retryGo op cfg fn fuel a t).result = .failure e time ∧ t ≤ time := by
  intro fuel
  induction fuel with
  | zero =>
    intro a t hT ht
    exact ⟨{ operation := op, attempts := a, lastError := .unknownErr }, t,
      by simp [retryGo_zero], le_refl t⟩
  | succ f ih =>
    intro a t hT ht
    have hr := racedAttempt_after_timer op cfg T (fn (a + 1)) t hT ht
    cases f with
    | zero =>
      exact ⟨{ operation := op, attempts := a + 1, lastError := .timedOut op T }, t,
        by rw [retryGo_succ]; simp [retryStep, hr], le_refl t⟩
    | succ f1 =>
      obtain ⟨e, time, hres, hle⟩ :=
        ih (a + 1) (t + calculateDelay a cfg) hT (le_trans ht (Nat.le_add_right t _))
      exact ⟨e, time, by rw [retryGo_succ]; simp [retryStep, hr, hres],
        le_trans (Nat.le_add_right t _) hle⟩

/-- C7 counterexample: with `maxAttempts = 3`, `initialDelay = 200 ms`,
`backoffFactor = 2` and a 5000 ms timeout, a hanging operation does NOT
fail the call at the 5000 ms timer: the loop still burns the remaining
backoff sleeps and two further (immediately-rejected) invocations, and
the call fails only at 5600 ms, with a `RetryError` wrapping the timeout
error — not with the timeout error itself at the timer instant. -/
theorem withRetry_timeout_not_at_timer :
    (withRetry "execute in page"
        ⟨3, 200, 2000, 2, some 5000⟩
        (fun _ => (FnBehavior.hang : FnBehavior Unit Unit))).result =
      .failure ⟨"execute in page", 3, .timedOut "execute in page" 5000⟩ 5600 ∧
    (withRetry "execute in page"
        ⟨3, 200, 2000, 2, some 5000⟩
        (fun _ => (FnBehavior.hang : FnBehavior Unit Unit))).invocations = 3 ∧
    (5000 : Nat) < 5600 := by
  refine ⟨rfl, rfl, by decide⟩

/-- C7 amended: a single timer is raced (an absolute deadline `T`, fixed
once before the loop): once it has fired, every remaining attempt —
including one that would succeed instantly — is rejected immediately with
the timeout error, so the whole call can only end in failure (it cannot
succeed or hang); but the failure is a `RetryError` delivered only after
the remaining backoff sleeps, not at the timeout instant. -/
theorem withRetry_timeout_amended {α ε : Type} :
    (∀ (op : String) (cfg : RetryConfig) (T : Nat) (b : FnBehavior α ε) (t : Nat),
       effectiveTimeout cfg = some T → T ≤ t →
       racedAttempt op cfg b t = .err (.timedOut op T) t) ∧
    (∀ (op : String) (cfg : RetryConfig) (T : Nat) (fn : Nat → FnBehavior α ε)
       (fuel a t : Nat), effectiveTimeout cfg = some T → T ≤ t →
       ∃ e time, (retryGo op cfg fn fuel a t).result = .failure e time ∧ t ≤ time) :=
  ⟨fun op cfg T b t hT ht => racedAttempt_after_timer op cfg T b t hT ht,
   fun op cfg T fn fuel a t hT ht => retryGo_after_timer op cfg T fn fuel a t hT ht⟩

/-- C7 amended witness: after the 5000 ms timer has fired, an attempt
that would resolve instantly is still rejected, and the remaining loop
can only fail. -/
theorem withRetry_timeout_amended_witness :
    racedAttempt "execute in page" ⟨3, 200, 2000, 2, some 5000⟩
        (FnBehavior.ok () 0 : FnBehavior Unit Unit) 6000 =
      .err (.timedOut "execute in page" 5000) 6000 ∧
    ∃ e time, (retryGo "execute in page" ⟨3, 200, 2000, 2, some 5000⟩
        (fun _ => (FnBehavior.ok () 0 : FnBehavior Unit Unit)) 2 1 6000).result =
        .failure e time ∧ 6000 ≤ time :=
  ⟨(@withRetry_timeout_amended Unit Unit).1 "execute in page"
      ⟨3, 200, 2000, 2, some 5000⟩ 5000 (FnBehavior.ok () 0) 6000 rfl (by decide),
   (@withRetry_timeout_amended Unit Unit).2 "execute in page"
      ⟨3, 200, 2000, 2, some 5000⟩ 5000
      (fun _ => (FnBehavior.ok () 0 : FnBehavior Unit Unit)) 2 1 6000 rfl (by decide)⟩

end VideoBookmarks
